import Mathlib

/-!
Shallow embedding of the `urlshortener` Rust library (provider abstraction and
dispatch layer): `src/providers.rs`, `src/request.rs` and the client dispatch
loop of `src/client.rs`.  Strings are modelled as `List Char`; Rust's
`str::split` (non-overlapping, left-to-right, always at least one piece) is
modelled by `splitOnL` below.  Fallible operations (a Rust `panic!`) are
modelled with `Option`.
-/

set_option maxRecDepth 4096

/-- Fuel-indexed worker for `splitOnL`.  The fuel only bounds the recursion
depth (any fuel at least the input length gives the same result, see
`splitGo_fuel`); it keeps the recursion structural so terms evaluate inside
the kernel. -/
def splitGo (sep : List Char) : Nat → List Char → List (List Char)
  | _, [] => [[]]
  | 0, l => [l]
  | fuel + 1, c :: rest =>
    if sep ≠ [] ∧ sep.isPrefixOf (c :: rest) then
      [] :: splitGo sep fuel (List.drop (sep.length - 1) rest)
    else
      match splitGo sep fuel rest with
      | [] => [[c]]
      | x :: xs => (c :: x) :: xs

/-- Model of Rust `str::split` for a string pattern `sep` (as used in
`providers.rs` the pattern is always non-empty).  Mirrors Rust semantics:
scanning left to right, splitting at each non-overlapping occurrence of
`sep`, always yielding at least one (possibly empty) piece. -/
def splitOnL (sep l : List Char) : List (List Char) :=
  splitGo sep l.length l

/-- Model of the first element of Rust `str::rsplit(sep)`: the suffix after the
rightmost occurrence of `sep` (the whole string when `sep` does not occur).
Used by `Provider::to_name` for `Kutt` (`host.rsplit("//").next().unwrap()`). -/
def rsplit_next (sep l : List Char) : List Char :=
  ((splitOnL sep.reverse l.reverse).headD []).reverse

/-- Model of Rust `String::replace(pat, "")` for the single-character pattern
`"\\"`: removes every backslash. -/
def stripBackslashes (v : List Char) : List Char :=
  v.filter (fun c => c ≠ '\\')

/-- Occurrence test: `occurs sep l = true` iff `sep` occurs as a contiguous
substring of `l` (for non-empty `sep`; `occurs [] l = true`). -/
def occurs (sep : List Char) : List Char → Bool
  | [] => sep.isEmpty
  | c :: rest => sep.isPrefixOf (c :: rest) || occurs sep rest

instance {ε α : Type} [DecidableEq ε] [DecidableEq α] : DecidableEq (Except ε α)
  | Except.ok a, Except.ok b =>
    if h : a = b then isTrue (by rw [h]) else isFalse (fun hh => h (Except.ok.inj hh))
  | Except.ok _, Except.error _ => isFalse (fun hh => Except.noConfusion hh)
  | Except.error _, Except.ok _ => isFalse (fun hh => Except.noConfusion hh)
  | Except.error a, Except.error b =>
    if h : a = b then isTrue (by rw [h]) else isFalse (fun hh => h (Except.error.inj hh))

/-- `src/providers.rs`: `enum ProviderError { Connection, Deserialize }`. -/
inductive ProviderError where
  | Connection
  | Deserialize
deriving DecidableEq, Repr

/-- `src/providers.rs`: `enum Provider`, the closed set of providers; `BitLy`,
`GooGl` and `Kutt` carry authentication data (`Kutt` also an optional host). -/
inductive Provider where
  | Abv8
  | BamBz
  | BitLy (token : List Char)
  | BitUrl
  | Bmeo
  | FifoCc
  | GooGl (api_key : List Char)
  | Kutt (api_key : List Char) (host : Option (List Char))
  | HecSu
  | HmmRs
  | IsGd
  | NowLinks
  | PhxCoIn
  | PsbeCo
  | SCoop
  | SirBz
  | Rlu
  | TinyUrl
  | TinyPh
  | TnyIm
  | UrlShortenerIo
  | VGd
deriving DecidableEq, Repr

/-- `src/providers.rs`: `pub const PROVIDERS: &[Provider]`, the default
priority list (auth-free providers, quality order). -/
def PROVIDERS : List Provider :=
  [ Provider.IsGd
  , Provider.VGd
  , Provider.BamBz
  , Provider.TinyPh
  , Provider.FifoCc
  , Provider.SCoop
  , Provider.Bmeo
  , Provider.UrlShortenerIo
  , Provider.HmmRs
  , Provider.BitUrl
  , Provider.TnyIm
  , Provider.SirBz
  , Provider.Rlu
  , Provider.HecSu
  , Provider.Abv8
  , Provider.TinyUrl
  , Provider.PsbeCo
  , Provider.NowLinks ]

/-- An auth-bearing provider variant (carries a token or api key). -/
def requiresAuth : Provider → Bool
  | Provider.BitLy _ => true
  | Provider.GooGl _ => true
  | Provider.Kutt _ _ => true
  | _ => false

/-- `src/providers.rs`: `Provider::to_name`.  For `Kutt` with a configured
host: `host.rsplit("//").next().unwrap()`; without: `"kutt.it"`. -/
def to_name : Provider → List Char
  | Provider.Abv8 => String.toList "abv8.me"
  | Provider.BamBz => String.toList "bam.bz"
  | Provider.BitLy _ => String.toList "bitly.com"
  | Provider.BitUrl => String.toList "biturl.top"
  | Provider.Bmeo => String.toList "bmeo.org"
  | Provider.FifoCc => String.toList "fifo.cc"
  | Provider.GooGl _ => String.toList "goo.gl"
  | Provider.HmmRs => String.toList "hmm.rs"
  | Provider.HecSu => String.toList "hec.su"
  | Provider.IsGd => String.toList "is.gd"
  | Provider.Kutt _ host =>
      match host with
      | some h => rsplit_next (String.toList "//") h
      | none => String.toList "kutt.it"
  | Provider.NowLinks => String.toList "nowlinks.net"
  | Provider.PhxCoIn => String.toList "phx.co.in"
  | Provider.PsbeCo => String.toList "psbe.co"
  | Provider.SCoop => String.toList "s.coop"
  | Provider.SirBz => String.toList "sirbz.com"
  | Provider.Rlu => String.toList "rlu.ru"
  | Provider.TinyUrl => String.toList "tinyurl.com"
  | Provider.TinyPh => String.toList "tiny.ph"
  | Provider.TnyIm => String.toList "tny.im"
  | Provider.UrlShortenerIo => String.toList "url-shortener.io"
  | Provider.VGd => String.toList "v.gd"

/-- `src/providers.rs`: macro `parse_xml_tag!`:
`res.split("<T>").nth(1).unwrap_or("").split("</T>").next().map(String::from)`. -/
def parse_xml_tag (tag res : List Char) : Option (List Char) :=
  ((splitOnL ('<' :: '/' :: tag ++ ['>'])
      ((splitOnL ('<' :: tag ++ ['>']) res).getD 1 [])).get? 0)

/-- `src/providers.rs`: macro `parse_json_tag!`:
`res.split("\"K\"").nth(1).unwrap_or("").split(",").next().unwrap_or("")
   .split("\"").nth(1).map(|v| format!("{}{}", prefix, v.replace("\\", "")))`. -/
def parse_json_tag (tag pfx res : List Char) : Option (List Char) :=
  (((splitOnL [','] ((splitOnL ('"' :: tag ++ ['"']) res).getD 1 [])).getD 0 []
     |> splitOnL ['"']).get? 1).map (fun v => pfx ++ stripBackslashes v)

/-- `src/providers.rs`: macro `parse_noop!`: `Some(res.to_owned())`. -/
def parse_noop (res : List Char) : Option (List Char) :=
  some res

/-- `src/providers.rs`: `tinyurl_parse`:
`res.split("data-clipboard-text=\"").nth(1).unwrap_or("").split("\">").next()`. -/
def tinyurl_parse (res : List Char) : Option (List Char) :=
  (splitOnL (String.toList "\">")
    ((splitOnL (String.toList "data-clipboard-text=\"") res).getD 1 [])).get? 0

def abv8_parse (res : List Char) : Option (List Char) := parse_noop res
def bambz_parse (res : List Char) : Option (List Char) :=
  parse_json_tag (String.toList "url") [] res
def bitly_parse (res : List Char) : Option (List Char) := parse_noop res
def biturl_parse (res : List Char) : Option (List Char) :=
  parse_json_tag (String.toList "short") [] res
def bmeo_parse (res : List Char) : Option (List Char) :=
  parse_json_tag (String.toList "short") [] res
def fifocc_parse (res : List Char) : Option (List Char) :=
  parse_json_tag (String.toList "shortner") (String.toList "http://fifo.cc/") res
def googl_parse (res : List Char) : Option (List Char) :=
  parse_json_tag (String.toList "id") [] res
def hmmrs_parse (res : List Char) : Option (List Char) :=
  parse_json_tag (String.toList "shortUrl") [] res
def hecsu_parse (res : List Char) : Option (List Char) :=
  parse_xml_tag (String.toList "short") res
def isgd_parse (res : List Char) : Option (List Char) := parse_noop res
def kutt_parse (res : List Char) : Option (List Char) :=
  parse_json_tag (String.toList "shortUrl") [] res
def nowlinks_parse (res : List Char) : Option (List Char) := parse_noop res
def phxcoin_parse (res : List Char) : Option (List Char) := parse_noop res
def psbeco_parse (res : List Char) : Option (List Char) :=
  parse_xml_tag (String.toList "ShortUrl") res
def scoop_parse (res : List Char) : Option (List Char) := parse_noop res
def sirbz_parse (res : List Char) : Option (List Char) :=
  parse_json_tag (String.toList "short_link") [] res
def rlu_parse (res : List Char) : Option (List Char) := parse_noop res
def tinyph_parse (res : List Char) : Option (List Char) :=
  parse_json_tag (String.toList "hash") (String.toList "http://tiny.ph/") res
def tnyim_parse (res : List Char) : Option (List Char) :=
  parse_xml_tag (String.toList "shorturl") res
def urlshortenerio_parse (res : List Char) : Option (List Char) := parse_noop res
def vgd_parse (res : List Char) : Option (List Char) := parse_noop res

/-- `src/providers.rs`: `pub fn parse(res, provider) -> Result<String, ProviderError>`:
per-provider extractor, `.ok_or(ProviderError::Deserialize)`. -/
def parse (res : List Char) (provider : Provider) : Except ProviderError (List Char) :=
  match
    (match provider with
     | Provider.Abv8 => abv8_parse res
     | Provider.BamBz => bambz_parse res
     | Provider.BitLy _ => bitly_parse res
     | Provider.BitUrl => biturl_parse res
     | Provider.Bmeo => bmeo_parse res
     | Provider.FifoCc => fifocc_parse res
     | Provider.GooGl _ => googl_parse res
     | Provider.HmmRs => hmmrs_parse res
     | Provider.HecSu => hecsu_parse res
     | Provider.IsGd => isgd_parse res
     | Provider.Kutt _ _ => kutt_parse res
     | Provider.NowLinks => nowlinks_parse res
     | Provider.PhxCoIn => phxcoin_parse res
     | Provider.PsbeCo => psbeco_parse res
     | Provider.SCoop => scoop_parse res
     | Provider.SirBz => sirbz_parse res
     | Provider.Rlu => rlu_parse res
     | Provider.TinyUrl => tinyurl_parse res
     | Provider.TinyPh => tinyph_parse res
     | Provider.TnyIm => tnyim_parse res
     | Provider.UrlShortenerIo => urlshortenerio_parse res
     | Provider.VGd => vgd_parse res)
  with
  | some s => Except.ok s
  | none => Except.error ProviderError.Deserialize

/-- `src/request.rs`: `enum Method { Get, Post }`. -/
inductive Method where
  | Get
  | Post
deriving DecidableEq, Repr

/-- `src/request.rs`: `enum ContentType { FormUrlEncoded, Json }`. -/
inductive ContentType where
  | FormUrlEncoded
  | Json
deriving DecidableEq, Repr

/-- `src/request.rs`: `struct Request`.  The `UserAgent` newtype is flattened
to its string; `HeaderMap` is modelled as an association list. -/
structure Request where
  url : List Char
  body : Option (List Char)
  content_type : Option ContentType
  user_agent : Option (List Char)
  headers : Option (List (List Char × List Char))
  method : Method
deriving DecidableEq, Repr

/-- `src/providers.rs`: `const FAKE_USER_AGENT`. -/
def FAKE_USER_AGENT : List Char :=
  String.toList "Mozilla/5.0 (X11; Ubuntu; Linux x86_64; rv:58.0) Gecko/20100101 Firefox/58.0"

/-- UTF-8 encoding of one char (byte values as `Nat`), used to model
`url.as_bytes()`. -/
def utf8Bytes (c : Char) : List Nat :=
  let n := c.toNat
  if n < 128 then [n]
  else if n < 2048 then [192 + n / 64, 128 + n % 64]
  else if n < 65536 then [224 + n / 4096, 128 + (n / 64) % 64, 128 + n % 64]
  else [240 + n / 262144, 128 + (n / 4096) % 64, 128 + (n / 64) % 64, 128 + n % 64]

/-- Upper-case hex digit for a value below 16. -/
def hexDigit (n : Nat) : Char :=
  if n < 10 then Char.ofNat (48 + n) else Char.ofNat (55 + n)

/-- `form_urlencoded::byte_serialize`: a byte is kept unchanged iff it is
ASCII alphanumeric or one of `*`, `-`, `.`, `_`. -/
def byte_serialized_unchanged (b : Nat) : Bool :=
  b = 42 || b = 45 || b = 46 || (48 ≤ b && b ≤ 57) || (65 ≤ b && b ≤ 90) ||
    b = 95 || (97 ≤ b && b ≤ 122)

/-- `form_urlencoded::byte_serialize`, one byte: space becomes `+`, kept bytes
stay, the rest is percent-encoded with upper-case hex. -/
def serializeByte (b : Nat) : List Char :=
  if b = 32 then ['+']
  else if byte_serialized_unchanged b then [Char.ofNat b]
  else ['%', hexDigit (b / 16), hexDigit (b % 16)]

/-- `form_urlencoded::byte_serialize(url.as_bytes()).collect::<String>()`, as
performed by the `request!` macro for every GET query interpolation. -/
def byte_serialize (url : List Char) : List Char :=
  (url.flatMap utf8Bytes).flatMap serializeByte

/-- Models the validity check of `http::HeaderValue::from_str` (invoked by
`kutt_req` through `api_key.parse()`): every byte must be the horizontal tab
or in 32..=255 excluding 127.  A char ≥ 128 contributes only bytes ≥ 128, all
legal, so the byte check reduces to this per-char check. -/
def header_value_ok (s : List Char) : Bool :=
  s.all (fun c => c = '\t' || (32 ≤ c.toNat && c.toNat ≠ 127))

def abv8_req (url : List Char) : Request :=
  { url := String.toList "http://abv8.me/?url=" ++ byte_serialize url
  , body := none, content_type := none, user_agent := none, headers := none
  , method := Method.Get }

def bambz_req (url : List Char) : Request :=
  { url := String.toList "https://bam.bz/api/short"
  , body := some (String.toList "target=" ++ url)
  , content_type := some ContentType.FormUrlEncoded
  , user_agent := none, headers := none, method := Method.Post }

def bitly_req (url key : List Char) : Request :=
  { url := String.toList "https://api-ssl.bitly.com/v3/shorten?access_token=" ++ key
      ++ String.toList "&longUrl=" ++ byte_serialize url ++ String.toList "&format=txt"
  , body := none, content_type := none, user_agent := none, headers := none
  , method := Method.Get }

def biturl_req (url : List Char) : Request :=
  { url := String.toList "https://api.biturl.top/short"
  , body := some (String.toList "url=" ++ url)
  , content_type := some ContentType.FormUrlEncoded
  , user_agent := none, headers := none, method := Method.Post }

def bmeo_req (url : List Char) : Request :=
  { url := String.toList "http://bmeo.org/api.php?url=" ++ byte_serialize url
  , body := none, content_type := none, user_agent := none, headers := none
  , method := Method.Get }

def fifocc_req (url : List Char) : Request :=
  { url := String.toList "https://fifo.cc/api/v2?url=" ++ byte_serialize url
  , body := none, content_type := none, user_agent := none, headers := none
  , method := Method.Get }

def googl_req (url key : List Char) : Request :=
  { url := String.toList "https://www.googleapis.com/urlshortener/v1/url?key=" ++ key
  , body := some (String.toList "\x7b\"longUrl\": \"" ++ url ++ String.toList "\"\x7d")
  , content_type := some ContentType.Json
  , user_agent := none, headers := none, method := Method.Post }

def hmmrs_req (url : List Char) : Request :=
  { url := String.toList "http:/hmm.rs/x/shorten"
  , body := some (String.toList "\x7b\"url\": \"" ++ url ++ String.toList "\"\x7d")
  , content_type := some ContentType.Json
  , user_agent := some FAKE_USER_AGENT, headers := none, method := Method.Post }

def hecsu_req (url : List Char) : Request :=
  { url := String.toList "https://hec.su/api?url=" ++ byte_serialize url
      ++ String.toList "&method=xml"
  , body := none, content_type := none, user_agent := none, headers := none
  , method := Method.Get }

def isgd_req (url : List Char) : Request :=
  { url := String.toList "https://is.gd/create.php?format=simple&url=" ++ byte_serialize url
  , body := none, content_type := none, user_agent := none, headers := none
  , method := Method.Get }

/-- `src/providers.rs`: `kutt_req`.  `headers.insert("X-API-Key",
api_key.parse().unwrap())` panics when the key is not a legal header value;
the panic is modelled as `none`. -/
def kutt_req (url api_key : List Char) (host : Option (List Char)) : Option Request :=
  if header_value_ok api_key then
    some
      { url := host.getD (String.toList "https://kutt.it") ++ String.toList "/api/url/submit"
      , body := some (String.toList "\x7b\"target\": \"" ++ url ++ String.toList "\"\x7d")
      , content_type := some ContentType.Json
      , user_agent := none
      , headers := some [(String.toList "X-API-Key", api_key)]
      , method := Method.Post }
  else none

def nowlinks_req (url : List Char) : Request :=
  { url := String.toList "http://nowlinks.net/api?url=" ++ byte_serialize url
  , body := none, content_type := none, user_agent := none, headers := none
  , method := Method.Get }

def phxcoin_req (url : List Char) : Request :=
  { url := String.toList "http://phx.co.in/shrink.asp?url=" ++ byte_serialize url
  , body := none, content_type := none, user_agent := none, headers := none
  , method := Method.Get }

def psbeco_req (url : List Char) : Request :=
  { url := String.toList "http://psbe.co/API.asmx/CreateUrl?real_url=" ++ byte_serialize url
  , body := none, content_type := none, user_agent := none, headers := none
  , method := Method.Get }

def scoop_req (url : List Char) : Request :=
  { url := String.toList "http://s.coop/devapi.php?action=shorturl&url=" ++ byte_serialize url
      ++ String.toList "&format=RETURN"
  , body := none, content_type := none, user_agent := none, headers := none
  , method := Method.Get }

def rlu_req (url : List Char) : Request :=
  { url := String.toList "http://rlu.ru/index.sema?a=api&link=" ++ byte_serialize url
  , body := none, content_type := none, user_agent := none, headers := none
  , method := Method.Get }

def sirbz_req (url : List Char) : Request :=
  { url := String.toList "http://sirbz.com/api/shorten_url"
  , body := some (String.toList "url=" ++ url)
  , content_type := some ContentType.FormUrlEncoded
  , user_agent := none, headers := none, method := Method.Post }

def tinyurl_req (url : List Char) : Request :=
  { url := String.toList "http://tinyurl.com/create.php?url=" ++ byte_serialize url
  , body := none, content_type := none, user_agent := none, headers := none
  , method := Method.Get }

def tinyph_req (url : List Char) : Request :=
  { url := String.toList "http://tiny.ph/api/url/create"
  , body := some (String.toList "url=" ++ url)
  , content_type := some ContentType.FormUrlEncoded
  , user_agent := none, headers := none, method := Method.Post }

def tnyim_req (url : List Char) : Request :=
  { url := String.toList "http://tny.im/yourls-api.php?action=shorturl&url=" ++ byte_serialize url
  , body := none, content_type := none, user_agent := none, headers := none
  , method := Method.Get }

def urlshortenerio_req (url : List Char) : Request :=
  { url := String.toList "http://url-shortener.io/shorten"
  , body := some (String.toList "url_param=" ++ url)
  , content_type := some ContentType.FormUrlEncoded
  , user_agent := none, headers := none, method := Method.Post }

def vgd_req (url : List Char) : Request :=
  { url := String.toList "http://v.gd/create.php?format=simple&url=" ++ byte_serialize url
  , body := none, content_type := none, user_agent := none, headers := none
  , method := Method.Get }

/-- `src/providers.rs`: `pub fn request(url, provider) -> req::Request`.
Only the `Kutt` arm can panic (modelled by `none`). -/
def request (url : List Char) (provider : Provider) : Option Request :=
  match provider with
  | Provider.Abv8 => some (abv8_req url)
  | Provider.BamBz => some (bambz_req url)
  | Provider.BitLy token => some (bitly_req url token)
  | Provider.BitUrl => some (biturl_req url)
  | Provider.Bmeo => some (bmeo_req url)
  | Provider.FifoCc => some (fifocc_req url)
  | Provider.GooGl api_key => some (googl_req url api_key)
  | Provider.Kutt api_key host => kutt_req url api_key host
  | Provider.HecSu => some (hecsu_req url)
  | Provider.HmmRs => some (hmmrs_req url)
  | Provider.IsGd => some (isgd_req url)
  | Provider.NowLinks => some (nowlinks_req url)
  | Provider.PhxCoIn => some (phxcoin_req url)
  | Provider.PsbeCo => some (psbeco_req url)
  | Provider.SCoop => some (scoop_req url)
  | Provider.SirBz => some (sirbz_req url)
  | Provider.Rlu => some (rlu_req url)
  | Provider.TinyUrl => some (tinyurl_req url)
  | Provider.TinyPh => some (tinyph_req url)
  | Provider.TnyIm => some (tnyim_req url)
  | Provider.UrlShortenerIo => some (urlshortenerio_req url)
  | Provider.VGd => some (vgd_req url)

/-- The `std::io::ErrorKind` values produced by `src/client.rs` (`Other` for
decode and exhaustion errors, `ConnectionAborted` for connection-class ones). -/
inductive ErrorKind where
  | ConnectionAborted
  | Other
deriving DecidableEq, Repr

/-- A `std::io::Error` as constructed by `src/client.rs`: a kind plus the
message passed to `Error::new`. -/
structure IoError where
  kind : ErrorKind
  msg : List Char
deriving DecidableEq, Repr

/-- The executor's view of one HTTP exchange, `src/client.rs::generate`:
`success` is `response.status().is_success()`; `readResult` is the outcome of
`response.read_to_string` (its `io::Error` is propagated by `try!`). -/
structure HttpResponse where
  success : Bool
  readResult : Except IoError (List Char)

/-- `Error::new(ErrorKind::ConnectionAborted, "Could not create a request")`
of `src/client.rs::generate`. -/
def connection_err : IoError :=
  { kind := ErrorKind.ConnectionAborted, msg := String.toList "Could not create a request" }

/-- `Error::new(ErrorKind::Other, "Decode error")` of `src/client.rs::generate`. -/
def decode_err : IoError :=
  { kind := ErrorKind.Other, msg := String.toList "Decode error" }

/-- `Error::new(ErrorKind::Other, "Failed to get short link from any service")`
of `src/client.rs::try_generate`. -/
def exhausted_err : IoError :=
  { kind := ErrorKind.Other, msg := String.toList "Failed to get short link from any service" }

/-- `src/client.rs`: `UrlShortener::generate`.  The HTTP transport
(`req.execute(&self.client)`, returning `Some(response)` on success) is the
external collaborator `ex`.  Result `none` models a panic inside `request`
(only possible for `Kutt`).  Control flow mirrors the source: a missing
response, a non-success status, or an empty body fall through to the trailing
`ConnectionAborted` error; a read failure is propagated by `try!`; a non-empty
body is parsed and a parse failure becomes the `Other`/"Decode error". -/
def generate (ex : Request → Option HttpResponse) (url : List Char) (provider : Provider) :
    Option (Except IoError (List Char)) :=
  match request url provider with
  | none => none
  | some req =>
    some
      (match ex req with
       | some response =>
         if response.success then
           match response.readResult with
           | Except.error e => Except.error e
           | Except.ok short_url =>
             if short_url.length > 0 then
               match parse short_url provider with
               | Except.ok s => Except.ok s
               | Except.error _ => Except.error decode_err
             else Except.error connection_err
         else Except.error connection_err
       | none => Except.error connection_err)

/-- `src/client.rs`: the provider loop of `UrlShortener::try_generate`,
instrumented with the list of providers on which `generate` was invoked (in
order): each iteration calls `generate`; `Ok` returns immediately; any `Err`
moves on to the next provider; an exhausted list yields the terminal
`Other`/"Failed to get short link from any service" error.  `none` propagates
a panic. -/
def try_generate_aux (ex : Request → Option HttpResponse) (url : List Char) :
    List Provider → Option (Except IoError (List Char) × List Provider)
  | [] => some (Except.error exhausted_err, [])
  | p :: rest =>
    match generate ex url p with
    | none => none
    | some (Except.ok s) => some (Except.ok s, [p])
    | some (Except.error _) =>
      (try_generate_aux ex url rest).map (fun r => (r.1, p :: r.2))

/-- `src/client.rs`: `UrlShortener::try_generate(url, use_providers)`:
`use_providers.unwrap_or(providers::PROVIDERS)`, then the loop. -/
def try_generate (ex : Request → Option HttpResponse) (url : List Char)
    (use_providers : Option (List Provider)) : Option (Except IoError (List Char)) :=
  (try_generate_aux ex url (use_providers.getD PROVIDERS)).map (fun r => r.1)

/-- The providers on which `try_generate` invokes `generate` (hence performs
HTTP work), in order; instrumentation of the same loop. -/
def try_generate_attempts (ex : Request → Option HttpResponse) (url : List Char)
    (use_providers : Option (List Provider)) : Option (List Provider) :=
  (try_generate_aux ex url (use_providers.getD PROVIDERS)).map (fun r => r.2)

/-- The behaviour a JSON-tag extractor with key `K` and prefix `pfx` gives to
`parse` at provider `p`: a body `{"K":"v"}` (value without quote or comma and
different from the key, so that the quoted key occurs only once) parses to the
prefix plus the backslash-stripped value, and a body in which the quoted key
does not occur yields `Deserialize`. -/
def json_tag_claim (p : Provider) (K pfx : List Char) : Prop :=
  (∀ v : List Char, (∀ c ∈ v, c ≠ '"') → ',' ∉ v → v ≠ K →
      parse ('{' :: '"' :: (K ++ ('"' :: ':' :: '"' :: (v ++ ['"', '}'])))) p =
        Except.ok (pfx ++ stripBackslashes v))
  ∧ (∀ res : List Char, occurs ('"' :: (K ++ ['"'])) res = false →
      parse res p = Except.error ProviderError.Deserialize)

/- ---------------------------------------------------------------------- -/
/- Theorems.  First: computation lemmas about `splitOnL`.                 -/
/- ---------------------------------------------------------------------- -/

theorem splitGo_nil (sep : List Char) : ∀ f : Nat, splitGo sep f [] = [[]] := by
  intro f; cases f <;> rfl

theorem splitGo_fuel₂ (sep : List Char) :
    ∀ (f g : Nat) (l : List Char), l.length ≤ f → l.length ≤ g →
      splitGo sep f l = splitGo sep g l := by
  intro f
  induction f with
  | zero =>
    intro g l hf _
    have : l = [] := List.length_eq_zero.mp (Nat.le_zero.mp hf)
    subst this
    rw [splitGo_nil, splitGo_nil]
  | succ f ih =>
    intro g l hf hg
    match l with
    | [] => rw [splitGo_nil, splitGo_nil]
    | c :: rest =>
      match g with
      | 0 => exact absurd hg (by simp)
      | g + 1 =>
        have hrf : rest.length ≤ f := by simp [List.length_cons] at hf; omega
        have hrg : rest.length ≤ g := by simp [List.length_cons] at hg; omega
        have hd : (List.drop (sep.length - 1) rest).length ≤ rest.length := by
          simp [List.length_drop]
        simp only [splitGo]
        by_cases hc : sep ≠ [] ∧ sep.isPrefixOf (c :: rest)
        · rw [if_pos hc, if_pos hc,
            ih g (List.drop (sep.length - 1) rest) (le_trans hd hrf) (le_trans hd hrg)]
        · rw [if_neg hc, if_neg hc, ih g rest hrf hrg]

theorem splitGo_fuel (sep : List Char) (f : Nat) (l : List Char) (h : l.length ≤ f) :
    splitGo sep f l = splitOnL sep l :=
  splitGo_fuel₂ sep f l.length l h le_rfl

theorem splitOnL_cons_pos (sep : List Char) (c : Char) (rest : List Char)
    (h1 : sep ≠ []) (h2 : sep.isPrefixOf (c :: rest)) :
    splitOnL sep (c :: rest) = [] :: splitOnL sep (List.drop (sep.length - 1) rest) := by
  show splitGo sep (c :: rest).length (c :: rest) = _
  simp only [List.length_cons, splitGo, if_pos (And.intro h1 h2)]
  rw [splitGo_fuel sep rest.length (List.drop (sep.length - 1) rest)
    (by simp [List.length_drop])]

theorem splitOnL_cons_neg (sep : List Char) (c : Char) (rest : List Char)
    (h : ¬ (sep ≠ [] ∧ sep.isPrefixOf (c :: rest))) :
    splitOnL sep (c :: rest) =
      match splitOnL sep rest with
      | [] => [[c]]
      | x :: xs => (c :: x) :: xs := by
  show splitGo sep (c :: rest).length (c :: rest) = _
  simp only [List.length_cons, splitGo, if_neg h]
  rw [splitGo_fuel sep rest.length rest le_rfl]

theorem splitGo_ne_nil (sep : List Char) : ∀ (f : Nat) (l : List Char), splitGo sep f l ≠ [] := by
  intro f l
  match f, l with
  | _, [] => simp [splitGo]
  | 0, c :: rest => simp [splitGo]
  | f + 1, c :: rest =>
    simp only [splitGo]
    by_cases hc : sep ≠ [] ∧ sep.isPrefixOf (c :: rest)
    · rw [if_pos hc]; simp
    · rw [if_neg hc]
      cases splitGo sep f rest <;> simp

theorem splitOnL_ne_nil (sep l : List Char) : splitOnL sep l ≠ [] :=
  splitGo_ne_nil sep l.length l

theorem splitOnL_no_occur (sep : List Char) :
    ∀ res : List Char, occurs sep res = false → splitOnL sep res = [res] := by
  intro res
  induction res with
  | nil => intro _; rfl
  | cons c rest ih =>
    intro h
    rw [occurs, Bool.or_eq_false_iff] at h
    rw [splitOnL_cons_neg sep c rest (fun hc => by
      have := hc.2
      rw [h.1] at this
      exact Bool.noConfusion this)]
    rw [ih h.2]

theorem occurs_single_notMem (q : Char) :
    ∀ l : List Char, q ∉ l → occurs [q] l = false := by
  intro l
  induction l with
  | nil => intro _; rfl
  | cons c rest ih =>
    intro h
    have hcq : (q == c) = false := by
      simp only [beq_eq_false_iff_ne, ne_eq]
      intro hqc; exact h (hqc ▸ List.mem_cons_self c rest)
    rw [occurs, Bool.or_eq_false_iff]
    constructor
    · simp [List.isPrefixOf, hcq]
    · exact ih (fun hm => h (List.mem_cons_of_mem c hm))

theorem isPrefixOf_self_append :
    ∀ (l b : List Char), l.isPrefixOf (l ++ b) = true
  | [], _ => by simp [List.isPrefixOf]
  | c :: t, b => by simp [List.isPrefixOf, isPrefixOf_self_append t b]

theorem drop_len_append : ∀ (k b : List Char), List.drop k.length (k ++ b) = b
  | [], _ => rfl
  | c :: t, b => by simp [drop_len_append t b]

/-- Splitting a string that begins with the (non-empty) separator: the first
piece is empty and the rest is the split of the remainder. -/
theorem splitOnL_head_occur (q : Char) (k b : List Char) :
    splitOnL (q :: k) ((q :: k) ++ b) = [] :: splitOnL (q :: k) b := by
  rw [show (q :: k) ++ b = q :: (k ++ b) from rfl]
  rw [splitOnL_cons_pos (q :: k) q (k ++ b) (by simp)
    (by rw [show q :: (k ++ b) = (q :: k) ++ b from rfl]; exact isPrefixOf_self_append (q :: k) b)]
  rw [show (q :: k).length - 1 = k.length by simp, drop_len_append]

/-- Splitting on a single character not occurring in `v`: the first piece of
`v ++ q :: t` is `v`. -/
theorem splitOnL_single_app (q : Char) (v t : List Char) (hv : q ∉ v) :
    splitOnL [q] (v ++ q :: t) = v :: splitOnL [q] t := by
  induction v with
  | nil => simpa using splitOnL_head_occur q [] t
  | cons c v' ih =>
    have hcq : (q == c) = false := by
      simp only [beq_eq_false_iff_ne, ne_eq]
      intro hqc; exact hv (hqc ▸ List.mem_cons_self c v')
    rw [show (c :: v') ++ q :: t = c :: (v' ++ q :: t) from rfl]
    rw [splitOnL_cons_neg [q] c (v' ++ q :: t) (fun hc => by
      have := hc.2
      simp [List.isPrefixOf, hcq] at this)]
    rw [ih (fun hm => hv (List.mem_cons_of_mem c hm))]

/-- A quoted key `K ++ [q]` is never a prefix of `v ++ q :: t` when neither
`K` nor `v` contains `q` and `v ≠ K` (the first `q` pins the boundary). -/
theorem quoted_key_not_prefixed (q : Char) :
    ∀ (K v t : List Char), (∀ c ∈ K, c ≠ q) → (∀ c ∈ v, c ≠ q) → v ≠ K →
      (K ++ [q]).isPrefixOf (v ++ q :: t) = false := by
  intro K
  induction K with
  | nil =>
    intro v t _ hv hvK
    match v with
    | [] => exact absurd rfl hvK
    | c :: v' =>
      have : (q == c) = false := by
        simp only [beq_eq_false_iff_ne, ne_eq]
        intro hqc; exact hv c (List.mem_cons_self c v') hqc.symm
      simp [List.isPrefixOf, this]
  | cons d K' ih =>
    intro v t hK hv hvK
    match v with
    | [] =>
      have : (d == q) = false := by
        simp only [beq_eq_false_iff_ne, ne_eq]
        exact hK d (List.mem_cons_self d K')
      simp [List.isPrefixOf, this]
    | c :: v' =>
      by_cases hdc : d = c
      · subst hdc
        have hK' : ∀ c ∈ K', c ≠ q := fun c hc => hK c (List.mem_cons_of_mem d hc)
        have hv' : ∀ c ∈ v', c ≠ q := fun c hc => hv c (List.mem_cons_of_mem d hc)
        have hvK' : v' ≠ K' := fun hh => hvK (by rw [hh])
        simp [List.isPrefixOf, ih v' t hK' hv' hvK']
      · have : (d == c) = false := by simpa [beq_eq_false_iff_ne, ne_eq] using hdc
        simp [List.isPrefixOf, this]

/-- Scanning for a pattern that starts with `q` skips over a `q`-free block. -/
theorem occurs_skip (q : Char) (k : List Char) :
    ∀ (v t : List Char), (∀ c ∈ v, c ≠ q) → occurs (q :: k) (v ++ t) = occurs (q :: k) t := by
  intro v
  induction v with
  | nil => intro t _; rfl
  | cons c v' ih =>
    intro t hv
    have : (q == c) = false := by
      simp only [beq_eq_false_iff_ne, ne_eq]
      intro hqc; exact hv c (List.mem_cons_self c v') hqc.symm
    rw [show (c :: v') ++ t = c :: (v' ++ t) from rfl, occurs]
    simp only [List.isPrefixOf, this, Bool.false_and, Bool.false_or]
    exact ih t (fun c hc => hv c (List.mem_cons_of_mem _ hc))

theorem isPrefixOf_nil_right (x : List Char) (hx : x ≠ []) : x.isPrefixOf [] = false := by
  cases x with
  | nil => exact absurd rfl hx
  | cons c t => rfl

/-- When the quoted key does not occur in the body, the JSON-tag extractor
fails (this is the `Deserialize` path). -/
theorem parse_json_tag_missing (K pfx res : List Char)
    (h : occurs ('"' :: (K ++ ['"'])) res = false) :
    parse_json_tag K pfx res = none := by
  unfold parse_json_tag
  simp only [List.cons_append]
  rw [splitOnL_no_occur _ res h]
  rfl

/-- The JSON-tag extractor on a body `{"K":"v"}` whose value contains no
quote and no comma and differs from the key: it yields the prefix plus the
backslash-stripped value. -/
theorem parse_json_tag_found (K pfx v : List Char)
    (hKq : ∀ c ∈ K, c ≠ '"') (hvq : ∀ c ∈ v, c ≠ '"') (hvc : ',' ∉ v) (hvK : v ≠ K) :
    parse_json_tag K pfx ('{' :: '"' :: (K ++ ('"' :: ':' :: '"' :: (v ++ ['"', '}'])))) =
      some (pfx ++ stripBackslashes v) := by
  have hvq' : '"' ∉ v := fun hm => hvq '"' hm rfl
  have hassoc : '{' :: '"' :: (K ++ ('"' :: ':' :: '"' :: (v ++ ['"', '}']))) =
      '{' :: (('"' :: (K ++ ['"'])) ++ (':' :: '"' :: (v ++ ['"', '}']))) := by
    simp
  have hpre : ('"' :: (K ++ ['"'])).isPrefixOf
      ('{' :: (('"' :: (K ++ ['"'])) ++ (':' :: '"' :: (v ++ ['"', '}'])))) = false := by
    have : ('"' == '{') = false := by decide
    simp [List.isPrefixOf, this]
  have hkp : (K ++ ['"']).isPrefixOf (v ++ '"' :: ['}']) = false :=
    quoted_key_not_prefixed '"' K v ['}'] hKq hvq hvK
  have h1 : (K ++ ['"']).isPrefixOf ['}'] = false := by
    cases K with
    | nil => decide
    | cons d K' =>
      have h2 : (K' ++ ['"']).isPrefixOf [] = false := isPrefixOf_nil_right _ (by simp)
      simp [List.isPrefixOf, h2]
  have htail : occurs ('"' :: (K ++ ['"'])) ['"', '}'] = false := by
    have hb1 : ('"' == '}') = false := by decide
    simp [occurs, List.isPrefixOf, h1, hb1]
  have hocc : occurs ('"' :: (K ++ ['"'])) (':' :: '"' :: (v ++ ['"', '}'])) = false := by
    have hc1 : ('"' == ':') = false := by decide
    rw [occurs, occurs]
    rw [occurs_skip '"' (K ++ ['"']) v ['"', '}'] hvq]
    simp [List.isPrefixOf, hc1, hkp, htail]
  have hsplit1 : splitOnL ('"' :: (K ++ ['"']))
      ('{' :: (('"' :: (K ++ ['"'])) ++ (':' :: '"' :: (v ++ ['"', '}'])))) =
      [['{'], ':' :: '"' :: (v ++ ['"', '}'])] := by
    rw [splitOnL_cons_neg _ _ _ (fun hcond => by simp [hpre] at hcond)]
    rw [splitOnL_head_occur '"' (K ++ ['"'])]
    rw [splitOnL_no_occur _ _ hocc]
  have hmem : ',' ∉ (':' :: '"' :: (v ++ ['"', '}'])) := by
    simp [List.mem_cons, List.mem_append, hvc]
  have hsplit2 : splitOnL [','] (':' :: '"' :: (v ++ ['"', '}'])) =
      [':' :: '"' :: (v ++ ['"', '}'])] :=
    splitOnL_no_occur _ _ (occurs_single_notMem ',' _ hmem)
  have hsplit3 : splitOnL ['"'] (':' :: '"' :: (v ++ ['"', '}'])) =
      [[':'], v, ['}']] := by
    have hc2 : ('"' == ':') = false := by decide
    rw [splitOnL_cons_neg _ _ _ (fun hcond => by simp [List.isPrefixOf, hc2] at hcond)]
    rw [show ('"' :: (v ++ ['"', '}'])) = (('"' :: []) ++ (v ++ '"' :: ['}'])) from rfl]
    rw [splitOnL_head_occur '"' []]
    rw [splitOnL_single_app '"' v ['}'] hvq']
    rfl
  unfold parse_json_tag
  simp only [List.cons_append]
  rw [hassoc, hsplit1]
  show ((splitOnL ['"'] ((splitOnL [','] (':' :: '"' :: (v ++ ['"', '}']))).getD 0 [])).get? 1).map
      (fun w => pfx ++ stripBackslashes w) = some (pfx ++ stripBackslashes v)
  rw [hsplit2]
  show ((splitOnL ['"'] (':' :: '"' :: (v ++ ['"', '}']))).get? 1).map
      (fun w => pfx ++ stripBackslashes w) = some (pfx ++ stripBackslashes v)
  rw [hsplit3]
  rfl

theorem json_tag_claim_of (p : Provider) (K pfx : List Char)
    (hKq : ∀ c ∈ K, c ≠ '"')
    (hp : ∀ res, parse res p =
        match parse_json_tag K pfx res with
        | some s => Except.ok s
        | none => Except.error ProviderError.Deserialize) :
    json_tag_claim p K pfx := by
  constructor
  · intro v hvq hvc hvK
    rw [hp, parse_json_tag_found K pfx v hKq hvq hvc hvK]
  · intro res hocc
    rw [hp, parse_json_tag_missing K pfx res hocc]

/-- When the opening marker does not occur in the body, the XML-tag extractor
still succeeds, with the empty string. -/
theorem parse_xml_tag_no_open (tag res : List Char)
    (h : occurs (('<' :: tag) ++ ['>']) res = false) :
    parse_xml_tag tag res = some [] := by
  unfold parse_xml_tag
  rw [splitOnL_no_occur _ res h]
  rfl

/-- When the opening marker does not occur in the body, `tinyurl_parse` still
succeeds, with the empty string. -/
theorem tinyurl_parse_no_open (res : List Char)
    (h : occurs (String.toList "data-clipboard-text=\"") res = false) :
    tinyurl_parse res = some [] := by
  unfold tinyurl_parse
  rw [splitOnL_no_occur _ res h]
  rfl

/-- Claim C6: the default priority list `PROVIDERS` is exactly the sequence
IsGd, VGd, BamBz, TinyPh, FifoCc, SCoop, Bmeo, UrlShortenerIo, HmmRs, BitUrl,
TnyIm, SirBz, Rlu, HecSu, Abv8, TinyUrl, PsbeCo, NowLinks in that order; it
contains no auth-bearing variant (BitLy, GooGl, Kutt) and each listed variant
exactly once. -/
theorem providers_default_list :
    PROVIDERS =
      [ Provider.IsGd, Provider.VGd, Provider.BamBz, Provider.TinyPh, Provider.FifoCc
      , Provider.SCoop, Provider.Bmeo, Provider.UrlShortenerIo, Provider.HmmRs
      , Provider.BitUrl, Provider.TnyIm, Provider.SirBz, Provider.Rlu, Provider.HecSu
      , Provider.Abv8, Provider.TinyUrl, Provider.PsbeCo, Provider.NowLinks ]
    ∧ (∀ p ∈ PROVIDERS, requiresAuth p = false)
    ∧ PROVIDERS.Nodup := by
  refine ⟨rfl, by decide, by decide⟩

/-- Claim C4 counterexample: the request URL for `HmmRs` is not
`http://hmm.rs/x/shorten` — the source writes a single slash after the
scheme. -/
theorem hmmrs_req_url_not_double_slash :
    ¬ ((request (String.toList "https://x") Provider.HmmRs).map Request.url =
        some (String.toList "http://hmm.rs/x/shorten")) := by decide

/-- Claim C4 (amended): for every long URL u, request(u, HmmRs) is a POST to
exactly the URL `http:/hmm.rs/x/shorten` (single slash after the scheme, as
written in the source), with JSON content type, body `{"url": "<u>"}` (a
space after the colon, u interpolated verbatim), and the fixed user-agent
string. -/
theorem hmmrs_req_spec (u : List Char) :
    request u Provider.HmmRs = some
      { url := String.toList "http:/hmm.rs/x/shorten"
      , body := some (String.toList "\x7b\"url\": \"" ++ u ++ String.toList "\"\x7d")
      , content_type := some ContentType.Json
      , user_agent := some FAKE_USER_AGENT
      , headers := none
      , method := Method.Post } := rfl

/-- Claim C5 counterexample: `to_name` for `Kutt` with the configured host
`""` is the empty string — not a non-empty string. -/
theorem to_name_kutt_empty_host :
    to_name (Provider.Kutt (String.toList "key") (some [])) = [] := by decide

/-- Claim C5 (amended): `to_name` is total; every variant other than `Kutt`
with a configured host reports a non-empty name; for `Kutt` with a configured
host the name is the host's last `//`-separated segment (the first element of
`host.rsplit("//")`), which is empty exactly when that segment is empty (for
example for the empty host string); without a configured host it is
`"kutt.it"`. -/
theorem to_name_spec :
    (∀ p, to_name p = [] →
        ∃ k h, p = Provider.Kutt k (some h) ∧ rsplit_next (String.toList "//") h = [])
    ∧ (∀ k h, to_name (Provider.Kutt k (some h)) = rsplit_next (String.toList "//") h)
    ∧ (∀ k, to_name (Provider.Kutt k none) = String.toList "kutt.it") := by
  refine ⟨?_, fun k h => rfl, fun k => rfl⟩
  intro p hp
  match p with
  | Provider.Abv8 => exact absurd hp (by decide)
  | Provider.BamBz => exact absurd hp (by decide)
  | Provider.BitLy _ => exact absurd hp (show ¬ String.toList "bitly.com" = [] by decide)
  | Provider.BitUrl => exact absurd hp (by decide)
  | Provider.Bmeo => exact absurd hp (by decide)
  | Provider.FifoCc => exact absurd hp (by decide)
  | Provider.GooGl _ => exact absurd hp (show ¬ String.toList "goo.gl" = [] by decide)
  | Provider.Kutt k host =>
    match host with
    | some h => exact ⟨k, h, rfl, hp⟩
    | none => exact absurd hp (show ¬ String.toList "kutt.it" = [] by decide)
  | Provider.HecSu => exact absurd hp (by decide)
  | Provider.HmmRs => exact absurd hp (by decide)
  | Provider.IsGd => exact absurd hp (by decide)
  | Provider.NowLinks => exact absurd hp (by decide)
  | Provider.PhxCoIn => exact absurd hp (by decide)
  | Provider.PsbeCo => exact absurd hp (by decide)
  | Provider.SCoop => exact absurd hp (by decide)
  | Provider.SirBz => exact absurd hp (by decide)
  | Provider.Rlu => exact absurd hp (by decide)
  | Provider.TinyUrl => exact absurd hp (by decide)
  | Provider.TinyPh => exact absurd hp (by decide)
  | Provider.TnyIm => exact absurd hp (by decide)
  | Provider.UrlShortenerIo => exact absurd hp (by decide)
  | Provider.VGd => exact absurd hp (by decide)

/-- Claim C5 witness: the first conjunct of `to_name_spec` applied to the
host `"a//"`, whose last `//`-separated segment is empty. -/
theorem to_name_spec_witness :
    ∃ k h, Provider.Kutt (String.toList "key") (some (String.toList "a//")) =
        Provider.Kutt k (some h) ∧ rsplit_next (String.toList "//") h = [] :=
  to_name_spec.1 (Provider.Kutt (String.toList "key") (some (String.toList "a//"))) (by decide)

/-- Claim C10: `request(url, Kutt)` is not total in the api key.  It panics
(modelled as `none`) whenever the key is not a legal HTTP header value — in
particular whenever the key contains a newline — and for every key made of
visible ASCII characters it returns normally, with the header `X-API-Key`
bound to exactly that key. -/
theorem kutt_request_panic (url k : List Char) (host : Option (List Char)) :
    (header_value_ok k = false → request url (Provider.Kutt k host) = none)
    ∧ ('\n' ∈ k → request url (Provider.Kutt k host) = none)
    ∧ ((∀ c ∈ k, 33 ≤ c.toNat ∧ c.toNat ≤ 126) →
        ∃ r, request url (Provider.Kutt k host) = some r
          ∧ r.headers = some [(String.toList "X-API-Key", k)]) := by
  refine ⟨?_, ?_, ?_⟩
  · intro hbad
    simp [request, kutt_req, hbad]
  · intro hnl
    have hbad : header_value_ok k = false := by
      rw [header_value_ok, List.all_eq_false]
      exact ⟨'\n', hnl, by decide⟩
    simp [request, kutt_req, hbad]
  · intro hvis
    have hok : header_value_ok k = true := by
      rw [header_value_ok, List.all_eq_true]
      intro c hc
      have h33 := (hvis c hc).1
      have h126 := (hvis c hc).2
      simp only [Bool.or_eq_true, decide_eq_true_eq, Bool.and_eq_true]
      right
      omega
    refine ⟨{ url := (host.getD (String.toList "https://kutt.it")) ++ String.toList "/api/url/submit"
            , body := some (String.toList "\x7b\"target\": \"" ++ url ++ String.toList "\"\x7d")
            , content_type := some ContentType.Json
            , user_agent := none
            , headers := some [(String.toList "X-API-Key", k)]
            , method := Method.Post }, ?_, rfl⟩
    simp [request, kutt_req, hok]

/-- Claim C10 witness: a newline-bearing key panics; a plain ASCII key
returns normally with the `X-API-Key` header set. -/
theorem kutt_request_panic_witness :
    request (String.toList "u") (Provider.Kutt ['\n'] none) = none
    ∧ ∃ r, request (String.toList "u") (Provider.Kutt (String.toList "KEY") none) = some r
        ∧ r.headers = some [(String.toList "X-API-Key", String.toList "KEY")] :=
  ⟨(kutt_request_panic (String.toList "u") ['\n'] none).2.1 (by decide),
   (kutt_request_panic (String.toList "u") (String.toList "KEY") none).2.2 (by decide)⟩

/-- Claim C3 counterexample: a body without the expected structural marker is
an empty-string success for the `HecSu` XML extractor — not a `Deserialize`
error (the same holds for the empty body). -/
theorem parse_hecsu_missing_marker_ok :
    parse (String.toList "no tag here") Provider.HecSu = Except.ok []
    ∧ parse [] Provider.HecSu = Except.ok []
    ∧ parse (String.toList "no tag here") Provider.HecSu ≠
        Except.error ProviderError.Deserialize := by
  refine ⟨by decide, by decide, by decide⟩

/-- Claim C3 (amended): for the XML-tag providers (HecSu tag `short`, PsbeCo
tag `ShortUrl`, TnyIm tag `shorturl`) and TinyUrl's HTML-attribute extractor,
`parse("<T>X</T>", p) = "X"` when both markers are present; but when the
opening marker is absent from the body (in particular for the empty body)
the parser returns the empty-string success `Ok ""`, never `Deserialize`. -/
theorem xml_parsers_spec :
    parse (String.toList "<short>X</short>") Provider.HecSu = Except.ok (String.toList "X")
    ∧ parse (String.toList "<ShortUrl>X</ShortUrl>") Provider.PsbeCo =
        Except.ok (String.toList "X")
    ∧ parse (String.toList "<shorturl>X</shorturl>") Provider.TnyIm =
        Except.ok (String.toList "X")
    ∧ parse (String.toList "data-clipboard-text=\"X\">") Provider.TinyUrl =
        Except.ok (String.toList "X")
    ∧ (∀ res, occurs (String.toList "<short>") res = false →
        parse res Provider.HecSu = Except.ok [])
    ∧ (∀ res, occurs (String.toList "<ShortUrl>") res = false →
        parse res Provider.PsbeCo = Except.ok [])
    ∧ (∀ res, occurs (String.toList "<shorturl>") res = false →
        parse res Provider.TnyIm = Except.ok [])
    ∧ (∀ res, occurs (String.toList "data-clipboard-text=\"") res = false →
        parse res Provider.TinyUrl = Except.ok []) := by
  refine ⟨by decide, by decide, by decide, by decide, ?_, ?_, ?_, ?_⟩
  · intro res h
    have hx : hecsu_parse res = some [] := parse_xml_tag_no_open (String.toList "short") res h
    simp [parse, hx]
  · intro res h
    have hx : psbeco_parse res = some [] :=
      parse_xml_tag_no_open (String.toList "ShortUrl") res h
    simp [parse, hx]
  · intro res h
    have hx : tnyim_parse res = some [] :=
      parse_xml_tag_no_open (String.toList "shorturl") res h
    simp [parse, hx]
  · intro res h
    have hx : tinyurl_parse res = some [] := tinyurl_parse_no_open res h
    simp [parse, hx]

/-- Claim C3 witness: the `PsbeCo` no-marker conjunct of `xml_parsers_spec`
applied to the body `"hello"`. -/
theorem xml_parsers_spec_witness :
    parse (String.toList "hello") Provider.PsbeCo = Except.ok [] :=
  xml_parsers_spec.2.2.2.2.2.1 (String.toList "hello") (by decide)

/-- Claim C7: every JSON-tag provider with key K and prefix P — BamBz
(`url`), Bmeo (`short`), FifoCc (`shortner`, prefix `http://fifo.cc/`), GooGl
(`id`), HmmRs (`shortUrl`), SirBz (`short_link`), TinyPh (`hash`, prefix
`http://tiny.ph/`), BitUrl (`short`) — parses a body `{"K":"v"}` to P plus
the captured value with every backslash stripped (for any value without
quote or comma that differs from the key), and a body in which the quoted
key does not occur yields `Deserialize`. -/
theorem json_parsers_spec :
    json_tag_claim Provider.BamBz (String.toList "url") []
    ∧ json_tag_claim Provider.Bmeo (String.toList "short") []
    ∧ json_tag_claim Provider.FifoCc (String.toList "shortner") (String.toList "http://fifo.cc/")
    ∧ (∀ key, json_tag_claim (Provider.GooGl key) (String.toList "id") [])
    ∧ json_tag_claim Provider.HmmRs (String.toList "shortUrl") []
    ∧ json_tag_claim Provider.SirBz (String.toList "short_link") []
    ∧ json_tag_claim Provider.TinyPh (String.toList "hash") (String.toList "http://tiny.ph/")
    ∧ json_tag_claim Provider.BitUrl (String.toList "short") [] :=
  ⟨ json_tag_claim_of _ _ _ (by decide) (fun res => rfl)
  , json_tag_claim_of _ _ _ (by decide) (fun res => rfl)
  , json_tag_claim_of _ _ _ (by decide) (fun res => rfl)
  , fun key => json_tag_claim_of _ _ _ (by decide) (fun res => rfl)
  , json_tag_claim_of _ _ _ (by decide) (fun res => rfl)
  , json_tag_claim_of _ _ _ (by decide) (fun res => rfl)
  , json_tag_claim_of _ _ _ (by decide) (fun res => rfl)
  , json_tag_claim_of _ _ _ (by decide) (fun res => rfl) ⟩

/-- Claim C7 witness: `parse('{"url":"Y"}', BamBz) = "Y"`; backslashes are
stripped (`{"hash":"a\b"}` for TinyPh gives `http://tiny.ph/ab`); a body
without the quoted key is a `Deserialize` error. -/
theorem json_parsers_spec_witness :
    parse (String.toList "\x7b\"url\":\"Y\"\x7d") Provider.BamBz =
      Except.ok (String.toList "Y")
    ∧ parse (String.toList "\x7b\"hash\":\"a\\b\"\x7d") Provider.TinyPh =
        Except.ok (String.toList "http://tiny.ph/ab")
    ∧ parse (String.toList "nothing here") Provider.Bmeo =
        Except.error ProviderError.Deserialize :=
  ⟨ json_parsers_spec.1.1 (String.toList "Y") (by decide) (by decide) (by decide)
  , (json_parsers_spec.2.2.2.2.2.2.1).1 (String.toList "a\\b")
      (by decide) (by decide) (by decide)
  , (json_parsers_spec.2.1).2 (String.toList "nothing here") (by decide) ⟩

/-- Claim C9: for the `Kutt` provider with any api key and any host, `parse`
extracts the JSON field `shortUrl` with an empty prefix, and a body in which
the quoted key `"shortUrl"` does not occur yields `Deserialize`. -/
theorem kutt_parse_spec (k : List Char) (host : Option (List Char)) :
    json_tag_claim (Provider.Kutt k host) (String.toList "shortUrl") [] :=
  json_tag_claim_of _ _ _ (by decide) (fun res => rfl)

/-- Claim C9 witness: `parse('{"shortUrl":"Y"}', Kutt) = "Y"` and a body
without the quoted key is a `Deserialize` error. -/
theorem kutt_parse_spec_witness :
    parse (String.toList "\x7b\"shortUrl\":\"Y\"\x7d") (Provider.Kutt [] none) =
      Except.ok (String.toList "Y")
    ∧ parse (String.toList "zzz") (Provider.Kutt [] none) =
        Except.error ProviderError.Deserialize :=
  ⟨ (kutt_parse_spec [] none).1 (String.toList "Y") (by decide) (by decide) (by decide)
  , (kutt_parse_spec [] none).2 (String.toList "zzz") (by decide) ⟩

/-- Claim C2 counterexample: a response with a non-success status and the
non-empty body `"https://is.gd/abc"` makes `generate` return the
`ConnectionAborted` error caused by the status alone — the body never reaches
the parser, whose verdict on that body would have been success. -/
theorem generate_ignores_parser_on_bad_status :
    generate
        (fun _ => some
          { success := false, readResult := Except.ok (String.toList "https://is.gd/abc") })
        (String.toList "u") Provider.IsGd = some (Except.error connection_err)
    ∧ parse (String.toList "https://is.gd/abc") Provider.IsGd =
        Except.ok (String.toList "https://is.gd/abc")
    ∧ connection_err.kind = ErrorKind.ConnectionAborted := by
  refine ⟨by decide, by decide, by decide⟩

/-- Claim C2 (amended): `generate` does inspect the HTTP status code: when
the executor's response has a non-success status the result is the
`ConnectionAborted` ("Could not create a request") error and the body is
never parsed; only a success status with a non-empty readable body flows
into the parser, whose verdict (success, or `Deserialize` mapped to the
`Other`/"Decode error") is the result. -/
theorem generate_status_gate (ex : Request → Option HttpResponse) (url : List Char)
    (p : Provider) :
    (∀ req resp, request url p = some req → ex req = some resp → resp.success = false →
       generate ex url p = some (Except.error connection_err))
    ∧ (∀ req body, request url p = some req →
         ex req = some { success := true, readResult := Except.ok body } → body ≠ [] →
         generate ex url p = some
           (match parse body p with
            | Except.ok s => Except.ok s
            | Except.error _ => Except.error decode_err)) := by
  constructor
  · intro req resp hreq hex hfail
    simp [generate, hreq, hex, hfail]
  · intro req body hreq hex hb
    have hlen : 0 < body.length := List.length_pos.mpr hb
    simp [generate, hreq, hex, hlen]

/-- Claim C2 witness: both conjuncts of `generate_status_gate` at concrete
executors for `VGd`. -/
theorem generate_status_gate_witness :
    generate (fun _ => some { success := false, readResult := Except.ok [] })
        (String.toList "u") Provider.VGd = some (Except.error connection_err)
    ∧ generate (fun _ => some { success := true, readResult := Except.ok (String.toList "ok") })
        (String.toList "u") Provider.VGd = some (Except.ok (String.toList "ok")) :=
  ⟨ (generate_status_gate
        (fun _ => some { success := false, readResult := Except.ok [] })
        (String.toList "u") Provider.VGd).1 (vgd_req (String.toList "u"))
      { success := false, readResult := Except.ok [] } rfl rfl rfl
  , (generate_status_gate
        (fun _ => some { success := true, readResult := Except.ok (String.toList "ok") })
        (String.toList "u") Provider.VGd).2 (vgd_req (String.toList "u"))
      (String.toList "ok") rfl rfl (by decide) ⟩

/-- Claim C1 counterexample: with an empty explicit provider list,
`try_generate` returns the terminal error of kind `Other` ("Failed to get
short link from any service") — not an error of the `ConnectionAborted` kind
that the client uses for connection failures. -/
theorem try_generate_empty_list_error_kind :
    try_generate (fun _ => none) (String.toList "u") (some []) =
      some (Except.error exhausted_err)
    ∧ exhausted_err.kind = ErrorKind.Other
    ∧ exhausted_err.kind ≠ connection_err.kind := by
  refine ⟨by decide, by decide, by decide⟩

/-- Claim C1 (amended): for every executor, long URL and provider sequence
(the default priority list when the caller omits the list, and including an
empty explicit list), if `generate` fails for every provider in the sequence
then `try_generate` returns the terminal `std::io::Error` of kind `Other`
with message "Failed to get short link from any service" (not the
`ConnectionAborted` kind used for connection failures); with an empty
explicit list it returns that error while invoking `generate` on no provider,
hence without performing any HTTP call. -/
theorem try_generate_exhausted (ex : Request → Option HttpResponse) (url : List Char) :
    (∀ l, (∀ p ∈ l, ∃ e, generate ex url p = some (Except.error e)) →
       try_generate ex url (some l) = some (Except.error exhausted_err))
    ∧ ((∀ p ∈ PROVIDERS, ∃ e, generate ex url p = some (Except.error e)) →
       try_generate ex url none = some (Except.error exhausted_err))
    ∧ try_generate ex url (some []) = some (Except.error exhausted_err)
    ∧ try_generate_attempts ex url (some []) = some [] := by
  have main : ∀ l : List Provider,
      (∀ p ∈ l, ∃ e, generate ex url p = some (Except.error e)) →
      try_generate_aux ex url l = some (Except.error exhausted_err, l) := by
    intro l
    induction l with
    | nil => intro _; rfl
    | cons p rest ih =>
      intro h
      obtain ⟨e, he⟩ := h p (List.mem_cons_self p rest)
      have hrest := ih (fun q hq => h q (List.mem_cons_of_mem p hq))
      simp only [try_generate_aux]
      rw [he, hrest]
      rfl
  refine ⟨?_, ?_, rfl, rfl⟩
  · intro l hl
    show (try_generate_aux ex url l).map (fun r => r.1) = some (Except.error exhausted_err)
    rw [main l hl]
    rfl
  · intro hl
    show (try_generate_aux ex url PROVIDERS).map (fun r => r.1) =
      some (Except.error exhausted_err)
    rw [main PROVIDERS hl]
    rfl

/-- Claim C1 witness: `try_generate_exhausted` applied to the executor that
never answers and the one-element list `[IsGd]`. -/
theorem try_generate_exhausted_witness :
    try_generate (fun _ => none) (String.toList "u") (some [Provider.IsGd]) =
      some (Except.error exhausted_err) :=
  (try_generate_exhausted (fun _ => none) (String.toList "u")).1 [Provider.IsGd]
    (fun p hp => ⟨connection_err, by
      have hp' : p = Provider.IsGd := by simpa using hp
      subst hp'
      decide⟩)

/-- Claim C8: `try_generate` tries the providers strictly sequentially in the
supplied order (the default priority list when the list is omitted), invoking
`generate` on each; it returns the first successful short URL immediately
(the providers invoked are exactly the failing prefix followed by the first
succeeding provider, and nothing after it), and on any failure it proceeds to
the next provider without distinguishing the failure kind. -/
theorem try_generate_sequential (ex : Request → Option HttpResponse) (url : List Char) :
    (∀ l₁ p s l₂,
        (∀ q ∈ l₁, ∃ e, generate ex url q = some (Except.error e)) →
        generate ex url p = some (Except.ok s) →
        try_generate ex url (some (l₁ ++ p :: l₂)) = some (Except.ok s)
          ∧ try_generate_attempts ex url (some (l₁ ++ p :: l₂)) = some (l₁ ++ [p]))
    ∧ try_generate ex url none = try_generate ex url (some PROVIDERS)
    ∧ try_generate_attempts ex url none = try_generate_attempts ex url (some PROVIDERS) := by
  refine ⟨?_, rfl, rfl⟩
  have main : ∀ l₁ p s l₂,
      (∀ q ∈ l₁, ∃ e, generate ex url q = some (Except.error e)) →
      generate ex url p = some (Except.ok s) →
      try_generate_aux ex url (l₁ ++ p :: l₂) = some (Except.ok s, l₁ ++ [p]) := by
    intro l₁
    induction l₁ with
    | nil =>
      intro p s l₂ _ hp
      simp only [List.nil_append]
      simp only [try_generate_aux]
      rw [hp]
    | cons q l₁' ih =>
      intro p s l₂ hfail hp
      obtain ⟨e, he⟩ := hfail q (List.mem_cons_self q l₁')
      have ih' := ih p s l₂ (fun r hr => hfail r (List.mem_cons_of_mem q hr)) hp
      show try_generate_aux ex url (q :: (l₁' ++ p :: l₂)) = _
      simp only [try_generate_aux]
      rw [he, ih']
      rfl
  intro l₁ p s l₂ hfail hp
  have h := main l₁ p s l₂ hfail hp
  constructor
  · show (try_generate_aux ex url (l₁ ++ p :: l₂)).map (fun r => r.1) = some (Except.ok s)
    rw [h]
    rfl
  · show (try_generate_aux ex url (l₁ ++ p :: l₂)).map (fun r => r.2) = some (l₁ ++ [p])
    rw [h]
    rfl

/-- Claim C8 witness: with an executor that fails for the IsGd endpoint and
answers `"https://v.gd/Z"` elsewhere, the list `[IsGd, VGd]` yields the VGd
short URL, with both providers attempted in order. -/
theorem try_generate_sequential_witness :
    try_generate
        (fun r => if r.url = String.toList "https://is.gd/create.php?format=simple&url=u"
          then none
          else some { success := true, readResult := Except.ok (String.toList "https://v.gd/Z") })
        (String.toList "u") (some [Provider.IsGd, Provider.VGd]) =
      some (Except.ok (String.toList "https://v.gd/Z"))
    ∧ try_generate_attempts
        (fun r => if r.url = String.toList "https://is.gd/create.php?format=simple&url=u"
          then none
          else some { success := true, readResult := Except.ok (String.toList "https://v.gd/Z") })
        (String.toList "u") (some [Provider.IsGd, Provider.VGd]) =
        some [Provider.IsGd, Provider.VGd] :=
  (try_generate_sequential
      (fun r => if r.url = String.toList "https://is.gd/create.php?format=simple&url=u"
        then none
        else some { success := true, readResult := Except.ok (String.toList "https://v.gd/Z") })
      (String.toList "u")).1 [Provider.IsGd] Provider.VGd (String.toList "https://v.gd/Z") []
    (fun q hq => ⟨connection_err, by
      have hq' : q = Provider.IsGd := by simpa using hq
      subst hq'
      decide⟩)
    (by decide)

/-- Claim C6 witness: the no-authentication conjunct of
`providers_default_list` applied to the head of the list. -/
theorem providers_default_list_witness :
    requiresAuth Provider.IsGd = false :=
  providers_default_list.2.1 Provider.IsGd (by decide)
